import Mathlib

/-!
Verification of the conversation session engine of the ai-selfbot
repository: the SSE stream decoder and in-memory conversation state of
`binx_client.py` (`BinXChatClient`), and the session store
(`ConversationManager`) and delivery retry loop (`DiscordAIBot.send_with_retry`)
of `discord_selfbot.py`.

The Python code is embedded shallowly:

* JSON values are an inductive `Json`; the external `json.loads` is an
  abstract parameter `parse : String -> Option Json` (returning `none` when
  parsing raises `json.JSONDecodeError`).
* Dynamic-typing failures of the chunk-extraction code (`TypeError`,
  `AttributeError`, ...) are made explicit with `Except PyErr`.
* Wall-clock times are integers (`Int`); `timedelta(minutes=t)` comparisons
  become integer comparisons against the timeout expressed in the same unit.
* Durations (such as `retry_after`, a float in the source) are modelled as
  exact integer quantities; no claim depends on fractional waits.
* The `channel.send` calls inside the retry loop are an abstract sequence of
  outcomes `send : Nat -> SendOutcome`, attempt by attempt.
-/

/-- JSON values, the result type of a successful `json.loads`. -/
inductive Json where
  | null : Json
  | bool : Bool → Json
  | num : Int → Json
  | str : String → Json
  | arr : List Json → Json
  | obj : List (String × Json) → Json

/-- Python exception classes that the chunk-extraction code can raise. -/
inductive PyErr where
  | typeError : PyErr
  | attributeError : PyErr
  | keyError : PyErr
  | indexError : PyErr
deriving DecidableEq, Repr

deriving instance DecidableEq for Except

/-- Whether `needle` occurs as a contiguous run inside `haystack`. -/
def listHasInfix (needle : List Char) : List Char → Bool
  | [] => List.isPrefixOf needle []
  | c :: rest => List.isPrefixOf needle (c :: rest) || listHasInfix needle rest

/-- Python membership test `k in data` for a string `k`: key lookup on dicts,
element equality on lists, substring test on strings, `TypeError` on
`None`, booleans and numbers. -/
def pyContains (k : String) : Json → Except PyErr Bool
  | Json.obj fs => Except.ok (fs.any (fun p => p.1 == k))
  | Json.arr xs => Except.ok (xs.any (fun x =>
      match x with
      | Json.str s => s == k
      | _ => false))
  | Json.str s => Except.ok (listHasInfix k.toList s.toList)
  | _ => Except.error PyErr.typeError

/-- Python subscript `data[k]` with a string key: dict lookup (`KeyError`
when absent), `TypeError` on strings, lists, and every other value. -/
def pySubscript (j : Json) (k : String) : Except PyErr Json :=
  match j with
  | Json.obj fs =>
    match fs.find? (fun p => p.1 == k) with
    | some p => Except.ok p.2
    | none => Except.error PyErr.keyError
  | _ => Except.error PyErr.typeError

/-- Python `len(x)`: defined on strings, lists and dicts, `TypeError`
otherwise. -/
def pyLen : Json → Except PyErr Nat
  | Json.str s => Except.ok s.length
  | Json.arr xs => Except.ok xs.length
  | Json.obj fs => Except.ok fs.length
  | _ => Except.error PyErr.typeError

/-- Python subscript `x[0]`: first element of a list, first character of a
string, `KeyError` on dicts (whose keys here are strings, never `0`),
`TypeError` otherwise. -/
def pyIndexZero : Json → Except PyErr Json
  | Json.arr [] => Except.error PyErr.indexError
  | Json.arr (x :: _) => Except.ok x
  | Json.str s =>
    if s == "" then Except.error PyErr.indexError
    else Except.ok (Json.str (String.mk (s.toList.take 1)))
  | Json.obj _ => Except.error PyErr.keyError
  | _ => Except.error PyErr.typeError

/-- Python `x.get(k, default)` for dicts; every non-dict value raises
`AttributeError` since only dicts have a `get` method here. -/
def pyDictGet (j : Json) (k : String) (dflt : Json) : Except PyErr Json :=
  match j with
  | Json.obj fs =>
    match fs.find? (fun p => p.1 == k) with
    | some p => Except.ok p.2
    | none => Except.ok dflt
  | _ => Except.error PyErr.attributeError

/-- One successfully parsed chunk of `BinXChatClient.send_message`
(binx_client.py lines 133-146): evaluates
`if choices in data and len(data[choices]) > 0:` then
`delta = data[choices][0].get(delta, \x7b\x7d)` then
`if content in delta: full_response += delta[content]`, with the exact
dynamic-typing failure modes of Python. `ok (some s)` means the string `s`
was appended to the accumulator, `ok none` means the chunk was skipped. -/
def chunkStep (data : Json) : Except PyErr (Option String) := do
  let has ← pyContains "choices" data
  if has then
    let choices ← pySubscript data "choices"
    let n ← pyLen choices
    if n > 0 then
      let first ← pyIndexZero choices
      let delta ← pyDictGet first "delta" (Json.obj [])
      let hasContent ← pyContains "content" delta
      if hasContent then
        let contentV ← pySubscript delta "content"
        match contentV with
        | Json.str s => pure (some s)
        | _ => Except.error PyErr.typeError
      else
        pure none
    else
      pure none
  else
    pure none

/-- Line prefix test `line.startswith("data: ")`. -/
def startsWithData (line : String) : Bool :=
  List.isPrefixOf "data: ".toList line.toList

/-- Python slice `line[6:]`, removing the `data: ` marker. -/
def dropMarker (line : String) : String :=
  String.mk (line.toList.drop 6)

/-- Python `s.strip()`: remove leading and trailing whitespace. -/
def pyStrip (s : String) : String :=
  String.mk (((s.toList.dropWhile Char.isWhitespace).reverse.dropWhile
    Char.isWhitespace).reverse)

/-- Result of processing one stream line inside the decode loop:
keep going with a (possibly grown) accumulator, break out of the loop,
or raise a Python exception. -/
inductive StepRes where
  | cont : String → StepRes
  | halt : String → StepRes
  | fail : PyErr → StepRes
deriving DecidableEq, Repr

/-- The body of the `for line in response.iter_lines():` loop of
`send_message` (binx_client.py lines 119-150) applied to one line with
accumulator `acc`: blank lines and lines without the `data: ` marker are
skipped, a payload stripping to `[DONE]` breaks out of the loop, a payload
that fails JSON parsing (`parse` returns `none`) is skipped, and otherwise
the chunk is processed by `chunkStep`. -/
def decodeStep (parse : String → Option Json) (acc line : String) : StepRes :=
  if line == "" then StepRes.cont acc
  else if startsWithData line then
    let dataStr := dropMarker line
    if pyStrip dataStr == "[DONE]" then StepRes.halt acc
    else
      match parse dataStr with
      | none => StepRes.cont acc
      | some j =>
        match chunkStep j with
        | Except.error e => StepRes.fail e
        | Except.ok none => StepRes.cont acc
        | Except.ok (some s) => StepRes.cont (acc ++ s)
  else StepRes.cont acc

/-- The decode loop over the remaining lines, threading the accumulator. -/
def decodeLoop (parse : String → Option Json) (acc : String) :
    List String → Except PyErr String
  | [] => Except.ok acc
  | l :: rest =>
    match decodeStep parse acc l with
    | StepRes.cont a => decodeLoop parse a rest
    | StepRes.halt a => Except.ok a
    | StepRes.fail e => Except.error e

/-- The full streaming decode of `send_message`: run the loop on all lines
of the response body with an empty accumulator. An `error` value is an
uncaught Python exception escaping the loop. -/
def decodeStream (parse : String → Option Json) (lines : List String) :
    Except PyErr String :=
  decodeLoop parse "" lines

/-- The content contribution of a single line: `some s` exactly when the
line is a non-blank `data: ` line whose payload is not the sentinel,
parses, and carries `choices[0].delta.content = s`. -/
def lineContent (parse : String → Option Json) (line : String) :
    Option String :=
  if line == "" then none
  else if startsWithData line then
    let dataStr := dropMarker line
    if pyStrip dataStr == "[DONE]" then none
    else
      match parse dataStr with
      | none => none
      | some j =>
        match chunkStep j with
        | Except.ok (some s) => some s
        | _ => none
  else none

/-- Whether a line is the end-of-stream sentinel line. -/
def isDoneLine (line : String) : Bool :=
  line != "" && startsWithData line && (pyStrip (dropMarker line) == "[DONE]")

/-- Whether processing the line cannot raise a Python exception. -/
def lineOk (parse : String → Option Json) (line : String) : Bool :=
  match decodeStep parse "" line with
  | StepRes.fail _ => false
  | _ => true

/-- Concatenation of a list of strings in order. -/
def concatStrings (l : List String) : String :=
  l.foldr (fun a b => a ++ b) ""

/-- Conversation roles of a turn. -/
inductive Role where
  | user : Role
  | assistant : Role
deriving DecidableEq, Repr

/-- One entry of `conversation_history`: a dict
`\x7b"role": ..., "content": ...\x7d`. -/
structure Turn where
  role : Role
  content : String
deriving DecidableEq, Repr

/-- The mutable state of a `BinXChatClient` instance
(binx_client.py lines 30-58): the bearer token and the two history lists. -/
structure Client where
  authToken : String
  conversationHistory : List Turn
  responseHistory : List String
deriving DecidableEq, Repr

/-- `BinXChatClient.__init__`: fresh client with empty histories. -/
def mkClient (tok : String) : Client :=
  { authToken := tok, conversationHistory := [], responseHistory := [] }

/-- The outcome of `requests.post` inside `send_message`: a connection
error, a timeout, or an HTTP response with a status code, a body text and
the line stream produced by `iter_lines`. -/
inductive ApiResponse where
  | connectionError : ApiResponse
  | timeout : ApiResponse
  | http : Int → String → List String → ApiResponse

/-- The exceptions `send_message` can raise, as observed by its caller. -/
inductive SendErr where
  | apiError : Int → String → SendErr
  | connectionFailed : SendErr
  | timedOut : SendErr
  | decodeRaised : PyErr → SendErr
deriving DecidableEq, Repr

/-- The state of a client after the user turn of `send_message` has been
appended (binx_client.py lines 81-84), before any network activity. -/
def appendUser (c : Client) (msg : String) : Client :=
  { c with conversationHistory :=
      c.conversationHistory ++ [{ role := Role.user, content := msg }] }

/-- `BinXChatClient.send_message` (binx_client.py lines 61-182): append the
user turn, perform the request, raise on non-200 status / connection error /
timeout, decode the stream, and on a non-empty decoded reply append the
assistant turn and prepend the reply to `response_history`. Returns the new
client state together with the returned string or raised exception. -/
def send_message (parse : String → Option Json) (c : Client) (msg : String)
    (resp : ApiResponse) : Client × Except SendErr String :=
  let c1 := appendUser c msg
  match resp with
  | ApiResponse.connectionError => (c1, Except.error SendErr.connectionFailed)
  | ApiResponse.timeout => (c1, Except.error SendErr.timedOut)
  | ApiResponse.http status body lines =>
    if status ≠ 200 then (c1, Except.error (SendErr.apiError status body))
    else
      match decodeStream parse lines with
      | Except.error e => (c1, Except.error (SendErr.decodeRaised e))
      | Except.ok full =>
        if full ≠ "" then
          ({ c1 with
              conversationHistory := c1.conversationHistory ++
                [{ role := Role.assistant, content := full }],
              responseHistory := full :: c1.responseHistory },
           Except.ok full)
        else (c1, Except.ok full)

/-- `BinXChatClient.reset_conversation` (binx_client.py lines 184-189). -/
def reset_conversation (c : Client) : Client :=
  { c with conversationHistory := [], responseHistory := [] }

/-- `BinXChatClient.set_conversation_history`
(binx_client.py lines 201-204): install a copy of the given turn list. -/
def set_conversation_history (c : Client) (h : List Turn) : Client :=
  { c with conversationHistory := h }

/-- An operation applied to one client, for invariant claims: a send with
its network outcome, a reset, or a history restore. -/
inductive Op where
  | send : String → ApiResponse → Op
  | reset : Op
  | setHistory : List Turn → Op

/-- Run a sequence of operations against a client. -/
def runOps (parse : String → Option Json) (c : Client) : List Op → Client
  | [] => c
  | Op.send msg resp :: rest =>
    runOps parse (send_message parse c msg resp).1 rest
  | Op.reset :: rest => runOps parse (reset_conversation c) rest
  | Op.setHistory h :: rest => runOps parse (set_conversation_history c h) rest

/-- The alternation predicate asserted by the specification: adjacent turns
carry distinct roles (a leading user turn with no prior assistant turn is
allowed, as is any start of the alternation). -/
def alternatesB : List Turn → Bool
  | [] => true
  | [_] => true
  | a :: b :: rest => (a.role != b.role) && alternatesB (b :: rest)

/-- Auxiliary invariant check with the role of the previous turn: every
assistant turn must be immediately preceded by a user turn. -/
def assistantsPrecededFrom (prev : Option Role) : List Turn → Bool
  | [] => true
  | t :: rest =>
    (t.role == Role.user || prev == some Role.user) &&
      assistantsPrecededFrom (some t.role) rest

/-- Every assistant turn is immediately preceded by a user turn. -/
def assistantsPreceded (l : List Turn) : Bool :=
  assistantsPrecededFrom none l

/-- Boolean side condition on operations: history-restore arguments must
themselves satisfy the invariant. -/
def opOk : Op → Bool
  | Op.setHistory h => assistantsPreceded h
  | _ => true

/-- One value of the `self.conversations` dict of `ConversationManager`:
the client and the last-activity timestamp. Times are integers in the same
unit as the timeout. -/
structure ConvRecord where
  client : Client
  lastActivity : Int
deriving DecidableEq, Repr

/-- `ConversationManager` state (discord_selfbot.py lines 61-72): an
insertion-ordered map from channel id to record, plus the inactivity
timeout. The dict is modelled as a key-unique association list. -/
structure ConversationManager where
  conversations : List (String × ConvRecord)
  timeoutMinutes : Int

/-- The timeout default of `ConversationManager.__init__`, also the value
`DiscordAIBot.__init__` passes explicitly (discord_selfbot.py line 159). -/
def defaultTimeoutMinutes : Int := 20

/-- Dict lookup `self.conversations[channel_id]` as an optional value. -/
def lookupConv (m : ConversationManager) (k : String) : Option ConvRecord :=
  (m.conversations.find? (fun p => p.1 == k)).map (fun p => p.2)

/-- In-place update `conv[last_activity] = current_time` of the record
stored under `k` (the client object is untouched). -/
def refreshActivity (l : List (String × ConvRecord)) (k : String) (t : Int) :
    List (String × ConvRecord) :=
  match l with
  | [] => []
  | (k', r) :: rest =>
    if k' == k then (k', { r with lastActivity := t }) :: rest
    else (k', r) :: refreshActivity rest k t

/-- Dict deletion `del self.conversations[channel_id]`: remove the (unique)
entry with the given key. -/
def eraseConv (l : List (String × ConvRecord)) (k : String) :
    List (String × ConvRecord) :=
  l.eraseP (fun p => p.1 == k)

/-- `ConversationManager.get_or_create` (discord_selfbot.py lines 74-109):
when a record exists and has been inactive for strictly longer than the
timeout, delete it and fall through to creation; when it exists and is
fresh, refresh its activity time and return its client; otherwise create a
fresh `BinXChatClient` and store it with the current time. -/
def get_or_create (m : ConversationManager) (now : Int) (channelId : String)
    (binxToken : String) : ConversationManager × Client :=
  match m.conversations.find? (fun p => p.1 == channelId) with
  | some p =>
    if now - p.2.lastActivity > m.timeoutMinutes then
      let c := mkClient binxToken
      ({ m with conversations :=
          eraseConv m.conversations channelId ++
            [(channelId, { client := c, lastActivity := now })] }, c)
    else
      ({ m with conversations := refreshActivity m.conversations channelId now },
       p.2.client)
  | none =>
    let c := mkClient binxToken
    ({ m with conversations :=
        m.conversations ++ [(channelId, { client := c, lastActivity := now })] },
     c)

/-- `ConversationManager.reset` (discord_selfbot.py lines 111-127):
reset the stored client in place and refresh its activity time, returning
whether a record existed. -/
def managerReset (m : ConversationManager) (now : Int) (channelId : String) :
    ConversationManager × Bool :=
  match m.conversations.find? (fun p => p.1 == channelId) with
  | some _ =>
    ({ m with conversations :=
        (m.conversations.map (fun p =>
          if p.1 == channelId then
            (p.1, { client := reset_conversation p.2.client, lastActivity := now })
          else p)) }, true)
  | none => (m, false)

/-- The expiry test `current_time - conv[last_activity] >
timedelta(minutes=self.timeout_minutes)` applied to one stored entry. -/
def isExpired (now timeout : Int) (p : String × ConvRecord) : Bool :=
  now - p.2.lastActivity > timeout

/-- `ConversationManager.cleanup_expired` (discord_selfbot.py lines
129-143): collect the keys of every record inactive for strictly longer
than the timeout, then delete each collected key. -/
def cleanup_expired (m : ConversationManager) (now : Int) :
    ConversationManager :=
  let expired := (m.conversations.filter
    (isExpired now m.timeoutMinutes)).map (fun p => p.1)
  { m with conversations :=
      expired.foldl (fun l k => eraseConv l k) m.conversations }

/-- The outcome of one `channel.send` call inside `send_with_retry`:
a sent message (abstracted as an id), a `discord.errors.HTTPException`
carrying an HTTP status, a platform error code, an optional `retry_after`
duration and the exception text, or any other exception. -/
inductive SendOutcome where
  | success : Nat → SendOutcome
  | httpErr : Int → Int → Option Int → String → SendOutcome
  | otherErr : String → SendOutcome

/-- An exception propagated out of `send_with_retry` by its bare `raise`. -/
inductive RaisedErr where
  | httpE : Int → Int → Option Int → String → RaisedErr
  | otherE : String → RaisedErr
deriving DecidableEq, Repr

/-- What `send_with_retry` does overall: return the sent message, return
`None`, or propagate an exception. -/
inductive RetryResult where
  | sent : Nat → RetryResult
  | noResult : RetryResult
  | raised : RaisedErr → RetryResult
deriving DecidableEq, Repr

/-- Whitespace class of the regex `\s`. -/
def isWs (c : Char) : Bool := c.isWhitespace

/-- Numeric value of a non-empty ASCII digit run, as `int()` computes it. -/
def digitsToNat (ds : List Char) : Nat :=
  ds.foldl (fun acc c => 10 * acc + (c.toNat - 48)) 0

/-- Attempted match of the regex `(\d+)\s*second` anchored at the start of
`cs`: a maximal non-empty digit run, optional whitespace, then the literal
`second`. Returns the integer value of the digit run. (Backtracking cannot
produce any other match at this position: a shorter digit run leaves a
digit where the rest of the pattern must start, and a shorter whitespace
run leaves a whitespace character where the literal `s` must start.) -/
def matchSecondAt (cs : List Char) : Option Nat :=
  let ds := cs.takeWhile Char.isDigit
  if ds.isEmpty then none
  else
    let rest := (cs.dropWhile Char.isDigit).dropWhile isWs
    if List.isPrefixOf "second".toList rest then some (digitsToNat ds)
    else none

/-- A search for the regex `(\d+)\s*second` in the manner of `re.search`:
the leftmost match wins. -/
def searchSecond : List Char → Option Nat
  | [] => none
  | c :: rest =>
    match matchSecondAt (c :: rest) with
    | some n => some n
    | none => searchSecond rest

/-- The advised wait extracted from the exception text in the slow-mode
branch of `send_with_retry` (discord_selfbot.py lines 202-204):
`wait_time = int(match.group(1)) if match else 5`. -/
def extractWait (msg : String) : Option Nat :=
  searchSecond msg.toList

/-- The slow-mode sleep duration: the extracted wait, defaulting to 5,
plus the 1 second buffer of `await asyncio.sleep(wait_time + 1)`. -/
def slowModeWait (msg : String) : Int :=
  Int.ofNat ((extractWait msg).getD 5) + 1

/-- The `for attempt in range(max_retries)` loop of
`DiscordAIBot.send_with_retry` (discord_selfbot.py lines 179-219), with
`n` attempts remaining and `send i` the outcome of the i-th remaining
`channel.send` call. Returns the overall result together with the list of
sleep durations performed, in order. Classification per attempt: a 403
status or code 50013 returns `None` immediately; a 429 status sleeps for
`retry_after` (default 5) and retries; code 20016 sleeps for the extracted
wait (default 5) plus a 1 second buffer and retries; any other failure
retries without sleeping, except on the final attempt where it re-raises. -/
def sendWithRetryGo (send : Nat → SendOutcome) : Nat → RetryResult × List Int
  | 0 => (RetryResult.noResult, [])
  | n + 1 =>
    match send 0 with
    | SendOutcome.success m => (RetryResult.sent m, [])
    | SendOutcome.httpErr st code ra msg =>
      if st = 403 ∨ code = 50013 then (RetryResult.noResult, [])
      else if st = 429 then
        let w := ra.getD 5
        let p := sendWithRetryGo (fun i => send (i + 1)) n
        (p.1, w :: p.2)
      else if code = 20016 then
        let w := slowModeWait msg
        let p := sendWithRetryGo (fun i => send (i + 1)) n
        (p.1, w :: p.2)
      else if n = 0 then (RetryResult.raised (RaisedErr.httpE st code ra msg), [])
      else sendWithRetryGo (fun i => send (i + 1)) n
    | SendOutcome.otherErr e =>
      if n = 0 then (RetryResult.raised (RaisedErr.otherE e), [])
      else sendWithRetryGo (fun i => send (i + 1)) n

/-- The default `max_retries` of `send_with_retry`. -/
def defaultMaxRetries : Nat := 3

/-- `DiscordAIBot.send_with_retry` over a sequence of send outcomes. -/
def send_with_retry (send : Nat → SendOutcome) (maxRetries : Nat) :
    RetryResult × List Int :=
  sendWithRetryGo send maxRetries

/-- Whether an outcome takes the permission-denied branch. -/
def isPermDenied : SendOutcome → Bool
  | SendOutcome.httpErr st code _ _ => st == 403 || code == 50013
  | _ => false

/-- Whether an outcome takes one of the two sleeping retry branches
(rate limit or slow mode). -/
def isRetryable : SendOutcome → Bool
  | SendOutcome.httpErr st code _ _ =>
    !(st == 403 || code == 50013) && (st == 429 || code == 20016)
  | _ => false

/-- Whether an outcome is a successful send. -/
def isSuccessO : SendOutcome → Bool
  | SendOutcome.success _ => true
  | _ => false

/-- Whether a failed outcome falls in the generic class (neither
permission-denied nor rate-limit nor slow-mode). -/
def isGenericFail (o : SendOutcome) : Bool :=
  !(isSuccessO o) && !(isPermDenied o) && !(isRetryable o)

/-- The exception a failed outcome re-raises. -/
def toRaised : SendOutcome → RaisedErr
  | SendOutcome.httpErr st code ra msg => RaisedErr.httpE st code ra msg
  | SendOutcome.otherErr e => RaisedErr.otherE e
  | SendOutcome.success _ => RaisedErr.otherE ""

/-- A sample parse table for concrete decoding runs: two well-formed
chunks, everything else unparseable. -/
def parseW : String → Option Json := fun s =>
  if s == "chunkA" then
    some (Json.obj [("choices", Json.arr
      [Json.obj [("delta", Json.obj [("content", Json.str "Hello ")])]])])
  else if s == "chunkB" then
    some (Json.obj [("choices", Json.arr
      [Json.obj [("delta", Json.obj [("content", Json.str "world")])]])])
  else none

/-- A sample line stream: blanks, non-data lines, two content chunks, an
unparseable chunk, the sentinel, and a chunk after the sentinel. -/
def linesW : List String :=
  ["", "event: ping", "data: chunkA", "notdata", "data: junk",
   "data: chunkB", "data:  [DONE]", "data: chunkA"]

/-- A parse table under which the payload `null` parses to JSON null,
exactly as `json.loads("null")` does. -/
def parseNullW : String → Option Json := fun s =>
  if s == "null" then some Json.null else none

/-- A parse table under which the payload `emptyobj` parses to an empty
JSON object. -/
def parseEmptyObjW : String → Option Json := fun s =>
  if s == "emptyobj" then some (Json.obj []) else none

/-- The network outcome of a send whose HTTP exchange succeeds but whose
stream carries no content. -/
def emptyStreamResp : ApiResponse := ApiResponse.http 200 "" []

/-- A concrete store for the C2 witness: one stale record under key c2. -/
def managerW : ConversationManager :=
  { conversations :=
      [("c2", { client := { authToken := "oldtok",
                            conversationHistory :=
                              [{ role := Role.user, content := "old" }],
                            responseHistory := [] },
                lastActivity := 0 })],
    timeoutMinutes := 20 }

/-- A concrete store for the C9 witness: one stale and one fresh record. -/
def sweepManagerW : ConversationManager :=
  { conversations :=
      [("old", { client := mkClient "a", lastActivity := 0 }),
       ("fresh", { client := mkClient "b", lastActivity := 90 })],
    timeoutMinutes := 20 }

/-- A send that is rate limited on every attempt, advising a 2 second
wait; no attempt is ever permission-denied. -/
def rateLimitedAlwaysW : Nat → SendOutcome :=
  fun _ => SendOutcome.httpErr 429 0 (some 2) "rate limited"

/-- A send that is permission-denied on the very first attempt. -/
def permFirstW : Nat → SendOutcome :=
  fun _ => SendOutcome.httpErr 403 50013 none "missing permissions"

/-- A send that is permission-denied on the second attempt after one
rate-limited attempt. -/
def permSecondW : Nat → SendOutcome := fun i =>
  if i = 0 then SendOutcome.httpErr 429 0 (some 2) "rate limited"
  else SendOutcome.httpErr 403 50013 none "missing permissions"

/-- A send that always fails with a generic server error. -/
def genericAlwaysW : Nat → SendOutcome :=
  fun _ => SendOutcome.httpErr 500 0 none "internal error"

/-- A send rate limited on the first three attempts, succeeding on the
fourth. -/
def rateLimitedThriceW : Nat → SendOutcome := fun i =>
  if i < 3 then SendOutcome.httpErr 429 0 (some 2) "rate limited"
  else SendOutcome.success 42

/-- A send rate limited twice (advising 3 then nothing), then
succeeding. -/
def rateLimitedTwiceW : Nat → SendOutcome := fun i =>
  if i = 0 then SendOutcome.httpErr 429 0 (some 3) "rate limited"
  else if i = 1 then SendOutcome.httpErr 429 0 none "rate limited again"
  else SendOutcome.success 77

/-- A send in slow mode once, with a parseable advised wait, then
succeeding. -/
def slowModeParseW : Nat → SendOutcome := fun i =>
  if i = 0 then
    SendOutcome.httpErr 400 20016 none "You must wait 7 seconds here"
  else SendOutcome.success 9

/-- A send in slow mode once, with no parseable wait in the text, then
succeeding. -/
def slowModeNoParseW : Nat → SendOutcome := fun i =>
  if i = 0 then SendOutcome.httpErr 400 20016 none "slow mode is active"
  else SendOutcome.success 9

theorem decodeStep_done (parse : String → Option Json) (acc l : String)
    (h : isDoneLine l = true) : decodeStep parse acc l = StepRes.halt acc := by
  simp only [isDoneLine, Bool.and_eq_true, bne_iff_ne, ne_eq] at h
  obtain ⟨⟨hne, hsw⟩, hdone⟩ := h
  have hb : (l == "") = false := by simpa using hne
  simp [decodeStep, hb, hsw, hdone]

theorem decodeStep_not_done (parse : String → Option Json) (acc l : String)
    (hok : lineOk parse l = true) (hnd : isDoneLine l = false) :
    decodeStep parse acc l =
      StepRes.cont (acc ++ ((lineContent parse l).getD "")) := by
  by_cases hb : (l == "") = true
  · simp [decodeStep, lineContent, hb, String.append_empty]
  · rw [Bool.not_eq_true] at hb
    by_cases hsw : startsWithData l = true
    · by_cases hdone : (pyStrip (dropMarker l) == "[DONE]") = true
      · exfalso
        simp [isDoneLine, bne, hb, hsw, hdone] at hnd
      · rw [Bool.not_eq_true] at hdone
        cases hp : parse (dropMarker l) with
        | none =>
          simp [decodeStep, lineContent, hb, hsw, hdone, hp, String.append_empty]
        | some j =>
          cases hc : chunkStep j with
          | error e =>
            exfalso
            simp [lineOk, decodeStep, hb, hsw, hdone, hp, hc] at hok
          | ok o =>
            cases o with
            | none =>
              simp [decodeStep, lineContent, hb, hsw, hdone, hp, hc,
                String.append_empty]
            | some s =>
              simp [decodeStep, lineContent, hb, hsw, hdone, hp, hc]
    · rw [Bool.not_eq_true] at hsw
      simp [decodeStep, lineContent, hb, hsw, String.append_empty]

theorem decodeLoop_concat (parse : String → Option Json) (lines : List String) :
    ∀ acc : String, (∀ l ∈ lines, lineOk parse l = true) →
    decodeLoop parse acc lines =
      Except.ok (acc ++ concatStrings
        ((lines.takeWhile (fun l => !isDoneLine l)).filterMap
          (lineContent parse))) := by
  induction lines with
  | nil =>
    intro acc _
    simp [decodeLoop, concatStrings, String.append_empty]
  | cons l rest ih =>
    intro acc h
    have hl : lineOk parse l = true := h l (List.mem_cons_self l rest)
    have hrest : ∀ x ∈ rest, lineOk parse x = true :=
      fun x hx => h x (List.mem_cons_of_mem l hx)
    by_cases hd : isDoneLine l = true
    · rw [decodeLoop, decodeStep_done parse acc l hd]
      simp [List.takeWhile_cons, hd, concatStrings, String.append_empty]
    · rw [Bool.not_eq_true] at hd
      rw [decodeLoop, decodeStep_not_done parse acc l hl hd]
      dsimp only
      rw [ih (acc ++ (lineContent parse l).getD "") hrest]
      simp only [List.takeWhile_cons, hd, Bool.not_false, if_true,
        List.filterMap_cons]
      cases hc : lineContent parse l with
      | none => simp [hc, String.append_empty]
      | some s => simp [hc, concatStrings, String.append_assoc]

/-- C1: for a stream whose individual lines never make the chunk handler
raise, the decoded accumulated text is exactly the concatenation, in
arrival order, of the `delta.content` payloads of the well-formed `data: `
lines strictly before the first sentinel line; blank lines, lines without
the marker, and unparseable or content-free payloads contribute nothing,
and lines at and after the first `[DONE]` line never contribute. -/
theorem C1_decoded_text_is_delta_concat (parse : String → Option Json)
    (lines : List String) (h : ∀ l ∈ lines, lineOk parse l = true) :
    decodeStream parse lines =
      Except.ok (concatStrings
        ((lines.takeWhile (fun l => !isDoneLine l)).filterMap
          (lineContent parse))) := by
  rw [decodeStream, decodeLoop_concat parse lines "" h, String.empty_append]

theorem C1_witness :
    (∀ l ∈ linesW, lineOk parseW l = true) ∧
    decodeStream parseW linesW = Except.ok "Hello world" := by
  refine ⟨by decide, ?_⟩
  rw [C1_decoded_text_is_delta_concat parseW linesW (by decide)]
  decide

/-- C6 counterexample: the payload `null` is not the sentinel and is not a
well-formed object of the expected shape, yet the decode loop raises an
uncaught `TypeError` on it (`"choices" in None` in Python), instead of
skipping the line: the decoder does raise for some malformed payloads. -/
theorem C6_counterexample :
    decodeStream parseNullW ["data: null"] = Except.error PyErr.typeError ∧
    pyStrip (dropMarker "data: null") ≠ "[DONE]" ∧
    lineOk parseNullW "data: null" = false := by
  decide

/-- C6 (amended): a `data: ` line whose non-sentinel payload fails JSON
parsing is skipped without raising and contributes nothing to the
accumulator, and likewise a payload parsing to a value from which the
extraction finds no content without a type mismatch; but (per the
counterexample) payloads parsing to unexpected shapes can raise. -/
theorem C6_unparseable_lines_skipped (parse : String → Option Json)
    (acc l : String) (hne : l ≠ "") (hsw : startsWithData l = true)
    (hnd : pyStrip (dropMarker l) ≠ "[DONE]") :
    (parse (dropMarker l) = none → decodeStep parse acc l = StepRes.cont acc) ∧
    (∀ j, parse (dropMarker l) = some j → chunkStep j = Except.ok none →
      decodeStep parse acc l = StepRes.cont acc) := by
  have hb : (l == "") = false := by simpa using hne
  have hdone : (pyStrip (dropMarker l) == "[DONE]") = false := by simpa using hnd
  constructor
  · intro hp
    simp [decodeStep, hb, hsw, hdone, hp]
  · intro j hp hc
    simp [decodeStep, hb, hsw, hdone, hp, hc]

theorem C6_witness :
    decodeStep parseW "acc" "data: junk" = StepRes.cont "acc" ∧
    decodeStep parseEmptyObjW "acc" "data: emptyobj" = StepRes.cont "acc" := by
  refine ⟨?_, ?_⟩
  · exact (C6_unparseable_lines_skipped parseW "acc" "data: junk"
      (by decide) (by decide) (by decide)).1 rfl
  · exact (C6_unparseable_lines_skipped parseEmptyObjW "acc" "data: emptyobj"
      (by decide) (by decide) (by decide)).2 (Json.obj []) rfl rfl

/-- C5: a send on a fresh session with decoded reply `reply` appends
exactly the user turn and the assistant turn when `reply` is non-empty,
and exactly the user turn (returning the empty string, with an untouched
response history) when the stream decodes to empty; and after any
non-empty send, from any prior state, the head of `responseHistory` is the
just-completed reply. -/
theorem C5_send_on_fresh_session (parse : String → Option Json)
    (tok body : String) (lines : List String) (reply : String)
    (hdec : decodeStream parse lines = Except.ok reply) :
    (reply ≠ "" →
      send_message parse (mkClient tok) "hello"
          (ApiResponse.http 200 body lines) =
        ({ authToken := tok,
           conversationHistory :=
             [{ role := Role.user, content := "hello" },
              { role := Role.assistant, content := reply }],
           responseHistory := [reply] }, Except.ok reply)) ∧
    (reply = "" →
      send_message parse (mkClient tok) "hello"
          (ApiResponse.http 200 body lines) =
        ({ authToken := tok,
           conversationHistory := [{ role := Role.user, content := "hello" }],
           responseHistory := [] }, Except.ok "")) ∧
    (∀ (c : Client) (msg : String), reply ≠ "" →
      ((send_message parse c msg
          (ApiResponse.http 200 body lines)).1.responseHistory).head? =
        some reply) := by
  refine ⟨?_, ?_, ?_⟩
  · intro hne
    simp [send_message, hdec, hne, appendUser, mkClient]
  · intro he
    subst he
    simp [send_message, hdec, appendUser, mkClient]
  · intro c msg hne
    simp [send_message, hdec, hne, appendUser]

theorem C5_witness :
    send_message parseW (mkClient "tok") "hello"
        (ApiResponse.http 200 "" linesW) =
      ({ authToken := "tok",
         conversationHistory :=
           [{ role := Role.user, content := "hello" },
            { role := Role.assistant, content := "Hello world" }],
         responseHistory := ["Hello world"] }, Except.ok "Hello world") ∧
    send_message parseW (mkClient "tok") "hello"
        (ApiResponse.http 200 "" []) =
      ({ authToken := "tok",
         conversationHistory := [{ role := Role.user, content := "hello" }],
         responseHistory := [] }, Except.ok "") ∧
    ((send_message parseW
        { authToken := "tok",
          conversationHistory := [{ role := Role.user, content := "x" }],
          responseHistory := ["old"] } "more"
        (ApiResponse.http 200 "" linesW)).1.responseHistory).head? =
      some "Hello world" := by
  refine ⟨?_, ?_, ?_⟩
  · exact (C5_send_on_fresh_session parseW "tok" "" linesW "Hello world"
      (by decide)).1 (by decide)
  · exact (C5_send_on_fresh_session parseW "tok" "" [] "" (by decide)).2.1 rfl
  · exact (C5_send_on_fresh_session parseW "tok" "" linesW "Hello world"
      (by decide)).2.2 _ "more" (by decide)

/-- C10: whenever `send_message` raises for a non-200 status, a connection
error or a timeout, the only state change is the user turn appended at the
start of the call: the conversation history has exactly that one new turn
and the response history is unchanged, for every prior state. -/
theorem C10_raising_send_appends_only_user_turn
    (parse : String → Option Json) (c : Client) (msg body : String)
    (lines : List String) (status : Int) (hst : status ≠ 200) :
    send_message parse c msg (ApiResponse.http status body lines) =
      (appendUser c msg, Except.error (SendErr.apiError status body)) ∧
    send_message parse c msg ApiResponse.connectionError =
      (appendUser c msg, Except.error SendErr.connectionFailed) ∧
    send_message parse c msg ApiResponse.timeout =
      (appendUser c msg, Except.error SendErr.timedOut) ∧
    (appendUser c msg).responseHistory = c.responseHistory ∧
    (appendUser c msg).conversationHistory =
      c.conversationHistory ++ [{ role := Role.user, content := msg }] := by
  refine ⟨?_, rfl, rfl, rfl, rfl⟩
  simp [send_message, hst]

theorem C10_witness :
    send_message parseW
        { authToken := "tok",
          conversationHistory := [{ role := Role.user, content := "x" }],
          responseHistory := ["old"] } "boom"
        (ApiResponse.http 500 "server error" []) =
      ({ authToken := "tok",
         conversationHistory :=
           [{ role := Role.user, content := "x" },
            { role := Role.user, content := "boom" }],
         responseHistory := ["old"] },
       Except.error (SendErr.apiError 500 "server error")) := by
  have h := (C10_raising_send_appends_only_user_turn parseW
    { authToken := "tok",
      conversationHistory := [{ role := Role.user, content := "x" }],
      responseHistory := ["old"] } "boom" "server error" [] 500 (by decide)).1
  rw [h]
  decide

theorem assistantsPrecededFrom_append_user (msg : String) :
    ∀ (l : List Turn) (prev : Option Role),
    assistantsPrecededFrom prev l = true →
    assistantsPrecededFrom prev
      (l ++ [{ role := Role.user, content := msg }]) = true := by
  intro l
  induction l with
  | nil =>
    intro prev _
    simp [assistantsPrecededFrom]
  | cons t rest ih =>
    intro prev h
    simp only [List.cons_append, assistantsPrecededFrom,
      Bool.and_eq_true] at h ⊢
    exact ⟨h.1, ih (some t.role) h.2⟩

theorem assistantsPrecededFrom_append_exchange (msg reply : String) :
    ∀ (l : List Turn) (prev : Option Role),
    assistantsPrecededFrom prev l = true →
    assistantsPrecededFrom prev
      (l ++ [{ role := Role.user, content := msg },
             { role := Role.assistant, content := reply }]) = true := by
  intro l
  induction l with
  | nil =>
    intro prev _
    simp [assistantsPrecededFrom]
  | cons t rest ih =>
    intro prev h
    simp only [List.cons_append, assistantsPrecededFrom,
      Bool.and_eq_true] at h ⊢
    exact ⟨h.1, ih (some t.role) h.2⟩

theorem send_message_preserves_inv (parse : String → Option Json)
    (c : Client) (msg : String) (resp : ApiResponse)
    (h : assistantsPreceded c.conversationHistory = true) :
    assistantsPreceded
      (send_message parse c msg resp).1.conversationHistory = true := by
  have hu : assistantsPreceded (appendUser c msg).conversationHistory = true :=
    assistantsPrecededFrom_append_user msg c.conversationHistory none h
  cases resp with
  | connectionError => exact hu
  | timeout => exact hu
  | http status body lines =>
    by_cases hst : status = 200
    · subst hst
      simp only [send_message, ne_eq, not_true_eq_false, if_false,
        reduceIte]
      cases hd : decodeStream parse lines with
      | error e => exact hu
      | ok full =>
        by_cases hf : full = ""
        · simp [hf, hu]
        · simp only [hf, if_neg, ne_eq, not_false_eq_true, reduceIte]
          show assistantsPreceded
            ((appendUser c msg).conversationHistory ++
              [{ role := Role.assistant, content := full }]) = true
          have : (appendUser c msg).conversationHistory ++
              [{ role := Role.assistant, content := full }] =
              c.conversationHistory ++
                [{ role := Role.user, content := msg },
                 { role := Role.assistant, content := full }] := by
            simp [appendUser]
          rw [this]
          exact assistantsPrecededFrom_append_exchange msg full
            c.conversationHistory none h
    · simp only [send_message, hst, ne_eq, reduceIte]
      simpa using hu

/-- C7 (amended): for every session reachable from a state satisfying the
invariant (in particular a fresh session) by sends, resets, and history
restores whose installed history satisfies the invariant, every assistant
turn is immediately preceded by a user turn. Full user/assistant
alternation fails (see the counterexample): a send whose stream decodes to
empty leaves an unanswered user turn, so two user turns can be adjacent. -/
theorem C7_assistant_turns_follow_user (parse : String → Option Json)
    (ops : List Op) : ∀ c : Client,
    assistantsPreceded c.conversationHistory = true →
    ops.all opOk = true →
    assistantsPreceded (runOps parse c ops).conversationHistory = true := by
  induction ops with
  | nil =>
    intro c h _
    exact h
  | cons op rest ih =>
    intro c h hall
    simp only [List.all_cons, Bool.and_eq_true] at hall
    cases op with
    | send msg resp =>
      exact ih _ (send_message_preserves_inv parse c msg resp h) hall.2
    | reset =>
      exact ih _ (by simp [reset_conversation, assistantsPreceded,
        assistantsPrecededFrom]) hall.2
    | setHistory hist =>
      exact ih _ (by simpa [set_conversation_history, opOk,
        assistantsPreceded] using hall.1) hall.2

/-- C7 counterexample: two sends whose streams decode to empty produce the
turn list `[user "a", user "b"]` — reachable via `send_message` alone —
which does not alternate roles (and is not merely a leading user turn). -/
theorem C7_counterexample :
    (runOps parseW (mkClient "tok")
      [Op.send "a" emptyStreamResp,
       Op.send "b" emptyStreamResp]).conversationHistory =
      [{ role := Role.user, content := "a" },
       { role := Role.user, content := "b" }] ∧
    alternatesB (runOps parseW (mkClient "tok")
      [Op.send "a" emptyStreamResp,
       Op.send "b" emptyStreamResp]).conversationHistory = false := by
  decide

theorem C7_witness :
    assistantsPreceded (runOps parseW (mkClient "tok")
      [Op.send "a" emptyStreamResp,
       Op.setHistory [{ role := Role.user, content := "u" },
                      { role := Role.assistant, content := "r" }],
       Op.send "b" (ApiResponse.http 200 "" linesW),
       Op.reset]).conversationHistory = true := by
  exact C7_assistant_turns_follow_user parseW _ (mkClient "tok")
    (by decide) (by decide)

theorem findConv_eq_none_of_not_mem (k : String) :
    ∀ l : List (String × ConvRecord), k ∉ l.map (fun p => p.1) →
    l.find? (fun p => p.1 == k) = none := by
  intro l
  induction l with
  | nil => intro _; rfl
  | cons p rest ih =>
    intro h
    simp only [List.map_cons, List.mem_cons] at h
    push_neg at h
    have hb : (p.1 == k) = false :=
      beq_eq_false_iff_ne.mpr (fun he => h.1 he.symm)
    simp only [List.find?, hb]
    exact ih h.2

theorem eraseConv_find_none (k : String) :
    ∀ l : List (String × ConvRecord), (l.map (fun p => p.1)).Nodup →
    (eraseConv l k).find? (fun p => p.1 == k) = none := by
  intro l
  induction l with
  | nil => intro _; rfl
  | cons p rest ih =>
    intro hnd
    simp only [List.map_cons, List.nodup_cons] at hnd
    by_cases hb : (p.1 == k) = true
    · have he : eraseConv (p :: rest) k = rest := by
        simp [eraseConv, List.eraseP_cons, hb]
      rw [he]
      apply findConv_eq_none_of_not_mem
      rw [← eq_of_beq hb]
      exact hnd.1
    · rw [Bool.not_eq_true] at hb
      have he : eraseConv (p :: rest) k = p :: eraseConv rest k := by
        simp [eraseConv, List.eraseP_cons, hb]
      rw [he]
      simp only [List.find?, hb]
      exact ih hnd.2

theorem refreshActivity_find (k : String) (t : Int) :
    ∀ (l : List (String × ConvRecord)) (p : String × ConvRecord),
    l.find? (fun q => q.1 == k) = some p →
    (refreshActivity l k t).find? (fun q => q.1 == k) =
      some (p.1, { p.2 with lastActivity := t }) := by
  intro l
  induction l with
  | nil => intro p h; cases h
  | cons q rest ih =>
    intro p h
    by_cases hb : (q.1 == k) = true
    · have hp : q = p := by
        simpa [List.find?, hb] using h
      subst hp
      simp [refreshActivity, hb, List.find?]
    · rw [Bool.not_eq_true] at hb
      have hh : (q :: rest).find? (fun q => q.1 == k) =
          rest.find? (fun q => q.1 == k) := by
        simp [List.find?, hb]
      rw [hh] at h
      simp only [refreshActivity, hb, Bool.false_eq_true, if_false,
        List.find?]
      exact ih p h

theorem get_or_create_timeout (m : ConversationManager) (now : Int)
    (k tok : String) :
    (get_or_create m now k tok).1.timeoutMinutes = m.timeoutMinutes := by
  unfold get_or_create
  cases m.conversations.find? (fun p => p.1 == k) with
  | none => rfl
  | some p =>
    dsimp only
    split <;> rfl

theorem get_or_create_stores (m : ConversationManager) (now : Int)
    (k tok : String) (hnd : (m.conversations.map (fun p => p.1)).Nodup) :
    (get_or_create m now k tok).1.conversations.find? (fun p => p.1 == k) =
      some (k, { client := (get_or_create m now k tok).2,
                 lastActivity := now }) := by
  unfold get_or_create
  cases hf : m.conversations.find? (fun p => p.1 == k) with
  | none =>
    dsimp only
    rw [List.find?_append, hf]
    simp [List.find?]
  | some p =>
    dsimp only
    by_cases hexp : now - p.2.lastActivity > m.timeoutMinutes
    · rw [if_pos hexp]
      dsimp only
      rw [List.find?_append, eraseConv_find_none k m.conversations hnd]
      simp [List.find?]
    · rw [if_neg hexp]
      dsimp only
      have hbk := List.find?_some hf
      have hk : p.1 = k := eq_of_beq (by simpa using hbk)
      have hr := refreshActivity_find k now m.conversations p hf
      rw [hk] at hr
      exact hr

theorem get_or_create_hit (m : ConversationManager) (now : Int)
    (k tok : String) (r : ConvRecord)
    (hf : m.conversations.find? (fun p => p.1 == k) = some (k, r))
    (hfresh : ¬ now - r.lastActivity > m.timeoutMinutes) :
    (get_or_create m now k tok).2 = r.client ∧
    lookupConv (get_or_create m now k tok).1 k =
      some { client := r.client, lastActivity := now } := by
  unfold get_or_create
  rw [hf]
  dsimp only
  rw [if_neg hfresh]
  refine ⟨rfl, ?_⟩
  unfold lookupConv
  dsimp only
  rw [refreshActivity_find k now m.conversations (k, r) hf]
  rfl

theorem get_or_create_expired (m : ConversationManager) (now : Int)
    (k tok : String) (q : String × ConvRecord)
    (hnd : (m.conversations.map (fun p => p.1)).Nodup)
    (hf : m.conversations.find? (fun p => p.1 == k) = some q)
    (hexp : now - q.2.lastActivity > m.timeoutMinutes) :
    (get_or_create m now k tok).2 = mkClient tok ∧
    lookupConv (get_or_create m now k tok).1 k =
      some { client := mkClient tok, lastActivity := now } := by
  unfold get_or_create
  rw [hf]
  dsimp only
  rw [if_pos hexp]
  refine ⟨rfl, ?_⟩
  unfold lookupConv
  dsimp only
  rw [List.find?_append, eraseConv_find_none k m.conversations hnd]
  simp [List.find?]

/-- C2: when a key is looked up twice with the second call no later than
the timeout after the first (and no other operation in between), the
second call returns the same client instance the first returned and
refreshes the stored `lastActivity` to the second time; and a lookup whose
stored record has been inactive for strictly longer than the timeout drops
the record and returns a fresh client with empty turn history. -/
theorem C2_reuse_within_timeout_and_expiry (m : ConversationManager)
    (t1 t2 : Int) (k tok tok2 : String)
    (hnd : (m.conversations.map (fun p => p.1)).Nodup) :
    (¬ t2 - t1 > m.timeoutMinutes →
      (get_or_create (get_or_create m t1 k tok).1 t2 k tok2).2 =
        (get_or_create m t1 k tok).2 ∧
      lookupConv (get_or_create (get_or_create m t1 k tok).1 t2 k tok2).1 k =
        some { client := (get_or_create m t1 k tok).2,
               lastActivity := t2 }) ∧
    (∀ rec : ConvRecord, lookupConv m k = some rec →
      t1 - rec.lastActivity > m.timeoutMinutes →
      (get_or_create m t1 k tok).2 = mkClient tok ∧
      (mkClient tok).conversationHistory = [] ∧
      lookupConv (get_or_create m t1 k tok).1 k =
        some { client := mkClient tok, lastActivity := t1 }) := by
  constructor
  · intro hfresh
    have hs := get_or_create_stores m t1 k tok hnd
    have hto := get_or_create_timeout m t1 k tok
    have hfresh2 : ¬ t2 - t1 > (get_or_create m t1 k tok).1.timeoutMinutes := by
      rw [hto]
      exact hfresh
    exact get_or_create_hit (get_or_create m t1 k tok).1 t2 k tok2
      { client := (get_or_create m t1 k tok).2, lastActivity := t1 } hs hfresh2
  · intro rec hrec hexp
    unfold lookupConv at hrec
    cases hf : m.conversations.find? (fun p => p.1 == k) with
    | none => rw [hf] at hrec; cases hrec
    | some q =>
      rw [hf] at hrec
      have hq : q.2 = rec := by simpa using hrec
      have hexp2 : t1 - q.2.lastActivity > m.timeoutMinutes := by
        rw [hq]
        exact hexp
      have := get_or_create_expired m t1 k tok q hnd hf hexp2
      exact ⟨this.1, rfl, this.2⟩

theorem C2_witness :
    ((get_or_create (get_or_create managerW 0 "c1" "tok").1 19 "c1" "t2").2 =
      (get_or_create managerW 0 "c1" "tok").2 ∧
     lookupConv
        (get_or_create (get_or_create managerW 0 "c1" "tok").1 19 "c1" "t2").1
        "c1" =
      some { client := (get_or_create managerW 0 "c1" "tok").2,
             lastActivity := 19 }) ∧
    ((get_or_create managerW 21 "c2" "tok").2 = mkClient "tok" ∧
     (mkClient "tok").conversationHistory = [] ∧
     lookupConv (get_or_create managerW 21 "c2" "tok").1 "c2" =
       some { client := mkClient "tok", lastActivity := 21 }) := by
  constructor
  · exact (C2_reuse_within_timeout_and_expiry managerW 0 19 "c1" "tok" "t2"
      (by decide)).1 (by decide)
  · exact (C2_reuse_within_timeout_and_expiry managerW 21 0 "c2" "tok" "x"
      (by decide)).2
      { client := { authToken := "oldtok",
                    conversationHistory :=
                      [{ role := Role.user, content := "old" }],
                    responseHistory := [] },
        lastActivity := 0 } (by decide) (by decide)

theorem foldl_erase_cons_of_not_mem (p : String × ConvRecord) :
    ∀ (ks : List String) (l : List (String × ConvRecord)), p.1 ∉ ks →
    ks.foldl (fun acc k => eraseConv acc k) (p :: l) =
      p :: ks.foldl (fun acc k => eraseConv acc k) l := by
  intro ks
  induction ks with
  | nil => intro l _; rfl
  | cons k ks ih =>
    intro l h
    simp only [List.mem_cons] at h
    push_neg at h
    have hb : (p.1 == k) = false := beq_eq_false_iff_ne.mpr h.1
    simp only [List.foldl_cons]
    have he : eraseConv (p :: l) k = p :: eraseConv l k := by
      simp [eraseConv, List.eraseP_cons, hb]
    rw [he]
    exact ih (eraseConv l k) h.2

theorem cleanup_foldl_filter (now timeout : Int) :
    ∀ l : List (String × ConvRecord), (l.map (fun p => p.1)).Nodup →
    (((l.filter (isExpired now timeout)).map (fun p => p.1)).foldl
        (fun acc k => eraseConv acc k) l) =
      l.filter (fun p => !(isExpired now timeout p)) := by
  intro l
  induction l with
  | nil => intro _; rfl
  | cons p t ih =>
    intro hnd
    simp only [List.map_cons, List.nodup_cons] at hnd
    by_cases he : isExpired now timeout p = true
    · simp only [List.filter_cons, he, if_true, List.map_cons,
        List.foldl_cons]
      have hdrop : eraseConv (p :: t) p.1 = t := by
        simp [eraseConv, List.eraseP_cons]
      rw [hdrop, ih hnd.2]
      simp [he]
    · rw [Bool.not_eq_true] at he
      have hkeep : List.filter (isExpired now timeout) (p :: t) =
          List.filter (isExpired now timeout) t := by
        simp [List.filter_cons, he]
      rw [hkeep]
      have hnm : p.1 ∉ (t.filter (isExpired now timeout)).map
          (fun q => q.1) := by
        intro hmem
        apply hnd.1
        rcases List.mem_map.mp hmem with ⟨x, hx, hxe⟩
        exact List.mem_map.mpr ⟨x, List.mem_of_mem_filter hx, hxe⟩
      rw [foldl_erase_cons_of_not_mem p _ t hnm, ih hnd.2]
      simp [List.filter_cons, he]

theorem lookup_filter_keyed (q : (String × ConvRecord) → Bool) (k : String)
    (r : ConvRecord) :
    ∀ l : List (String × ConvRecord), (l.map (fun p => p.1)).Nodup →
    ((((l.filter q).find? (fun p => p.1 == k)).map (fun p => p.2)) = some r ↔
      ((l.find? (fun p => p.1 == k)).map (fun p => p.2) = some r ∧
        q (k, r) = true)) := by
  intro l
  induction l with
  | nil =>
    intro _
    simp [List.find?]
  | cons p t ih =>
    intro hnd
    simp only [List.map_cons, List.nodup_cons] at hnd
    by_cases hb : (p.1 == k) = true
    · have hk : p.1 = k := eq_of_beq hb
      by_cases hq : q p = true
      · simp only [List.filter_cons, hq, if_true, List.find?, hb,
          Option.map_some]
        constructor
        · intro hr
          have hr2 : p.2 = r := by simpa using hr
          refine ⟨by simpa using hr2, ?_⟩
          rw [← hr2, ← hk]
          exact hq
        · intro hr
          simpa using hr.1
      · rw [Bool.not_eq_true] at hq
        have hnone : ((p :: t).filter q).find? (fun p => p.1 == k) = none := by
          simp only [List.filter_cons, hq, if_false]
          apply findConv_eq_none_of_not_mem
          intro hmem
          apply hnd.1
          rcases List.mem_map.mp hmem with ⟨x, hx, hxe⟩
          rw [← hk] at hxe
          exact List.mem_map.mpr ⟨x, List.mem_of_mem_filter hx, hxe⟩
        rw [hnone]
        simp only [Option.map_none, List.find?, hb, Option.map_some]
        constructor
        · intro hr
          cases hr
        · intro hr
          have hr2 : p.2 = r := by simpa using hr.1
          rw [← hr2, ← hk] at hr
          rw [hq] at hr
          cases hr.2
    · rw [Bool.not_eq_true] at hb
      have hstep : (p :: t).find? (fun p => p.1 == k) =
          t.find? (fun p => p.1 == k) := by
        simp [List.find?, hb]
      by_cases hq : q p = true
      · simp only [List.filter_cons, hq, if_true, List.find?, hb, hstep]
        exact ih hnd.2
      · rw [Bool.not_eq_true] at hq
        simp only [List.filter_cons, hq, if_false, hstep]
        exact ih hnd.2

/-- C9: after a sweep at time `now` a record survives under its key if and
only if it was there before and its `lastActivity` is within the timeout:
no expired record remains, and every fresh record is kept untouched (same
client instance, same `lastActivity`). -/
theorem C9_cleanup_keeps_exactly_fresh (m : ConversationManager) (now : Int)
    (k : String) (r : ConvRecord)
    (hnd : (m.conversations.map (fun p => p.1)).Nodup) :
    lookupConv (cleanup_expired m now) k = some r ↔
      (lookupConv m k = some r ∧
        ¬ now - r.lastActivity > m.timeoutMinutes) := by
  unfold cleanup_expired lookupConv
  dsimp only
  rw [cleanup_foldl_filter now m.timeoutMinutes m.conversations hnd]
  rw [lookup_filter_keyed (fun p => !(isExpired now m.timeoutMinutes p)) k r
    m.conversations hnd]
  constructor
  · intro h
    refine ⟨h.1, ?_⟩
    have := h.2
    simpa [isExpired] using this
  · intro h
    refine ⟨h.1, ?_⟩
    simpa [isExpired] using h.2

theorem C9_witness :
    lookupConv (cleanup_expired sweepManagerW 100) "fresh" =
      some { client := mkClient "b", lastActivity := 90 } ∧
    lookupConv (cleanup_expired sweepManagerW 100) "old" = none := by
  constructor
  · exact (C9_cleanup_keeps_exactly_fresh sweepManagerW 100 "fresh"
      { client := mkClient "b", lastActivity := 90 } (by decide)).mpr
      ⟨by decide, by decide⟩
  · decide

theorem go_step_429 (send : Nat → SendOutcome) (n : Nat)
    (st code : Int) (ra : Option Int) (msg : String)
    (h : send 0 = SendOutcome.httpErr st code ra msg)
    (hnp : ¬ (st = 403 ∨ code = 50013)) (h429 : st = 429) :
    sendWithRetryGo send (n + 1) =
      ((sendWithRetryGo (fun i => send (i + 1)) n).1,
        ra.getD 5 :: (sendWithRetryGo (fun i => send (i + 1)) n).2) := by
  simp only [sendWithRetryGo, h]
  rw [if_neg hnp, if_pos h429]

theorem go_step_slow (send : Nat → SendOutcome) (n : Nat)
    (st code : Int) (ra : Option Int) (msg : String)
    (h : send 0 = SendOutcome.httpErr st code ra msg)
    (hnp : ¬ (st = 403 ∨ code = 50013)) (h429 : st ≠ 429)
    (hsm : code = 20016) :
    sendWithRetryGo send (n + 1) =
      ((sendWithRetryGo (fun i => send (i + 1)) n).1,
        slowModeWait msg :: (sendWithRetryGo (fun i => send (i + 1)) n).2) := by
  simp only [sendWithRetryGo, h]
  rw [if_neg hnp, if_neg h429, if_pos hsm]

theorem go_perm_first (send : Nat → SendOutcome) (n : Nat)
    (h : isPermDenied (send 0) = true) :
    sendWithRetryGo send (n + 1) = (RetryResult.noResult, []) := by
  cases ho : send 0 with
  | success m => rw [ho] at h; simp [isPermDenied] at h
  | otherErr e => rw [ho] at h; simp [isPermDenied] at h
  | httpErr st code ra msg =>
    rw [ho] at h
    simp only [isPermDenied, Bool.or_eq_true, beq_iff_eq] at h
    simp only [sendWithRetryGo, ho]
    rw [if_pos h]

theorem retryable_conds (st code : Int) (ra : Option Int) (msg : String)
    (h : isRetryable (SendOutcome.httpErr st code ra msg) = true) :
    ¬ (st = 403 ∨ code = 50013) ∧ (st = 429 ∨ code = 20016) := by
  simp only [isRetryable, Bool.and_eq_true, Bool.not_eq_true',
    Bool.or_eq_true, beq_iff_eq] at h
  refine ⟨?_, h.2⟩
  intro hc
  rcases hc with hc | hc
  · rw [hc] at h
    simp at h
  · rw [hc] at h
    simp at h

theorem go_retryable_step (send : Nat → SendOutcome) (n : Nat)
    (h : isRetryable (send 0) = true) :
    (sendWithRetryGo send (n + 1)).1 =
      (sendWithRetryGo (fun i => send (i + 1)) n).1 ∧
    (sendWithRetryGo send (n + 1)).2.length =
      (sendWithRetryGo (fun i => send (i + 1)) n).2.length + 1 := by
  cases ho : send 0 with
  | success m => rw [ho] at h; simp [isRetryable] at h
  | otherErr e => rw [ho] at h; simp [isRetryable] at h
  | httpErr st code ra msg =>
    rw [ho] at h
    rcases retryable_conds st code ra msg h with ⟨hnp, hor⟩
    by_cases h429 : st = 429
    · rw [go_step_429 send n st code ra msg ho hnp h429]
      exact ⟨rfl, rfl⟩
    · have hsm : code = 20016 := by
        rcases hor with hc | hc
        · exact absurd hc h429
        · exact hc
      rw [go_step_slow send n st code ra msg ho hnp h429 hsm]
      exact ⟨rfl, rfl⟩

theorem genericHttp_conds (st code : Int) (ra : Option Int) (msg : String)
    (h : isGenericFail (SendOutcome.httpErr st code ra msg) = true) :
    ¬ (st = 403 ∨ code = 50013) ∧ st ≠ 429 ∧ code ≠ 20016 := by
  simp only [isGenericFail, isSuccessO, isPermDenied, isRetryable,
    Bool.not_eq_true', Bool.and_eq_true] at h
  obtain ⟨⟨-, hp⟩, hr⟩ := h
  simp only [Bool.or_eq_false_iff] at hp
  obtain ⟨hp1, hp2⟩ := hp
  refine ⟨?_, ?_, ?_⟩
  · rintro (hc | hc)
    · subst hc
      simp at hp1
    · subst hc
      simp at hp2
  · intro hc
    subst hc
    simp [hp1, hp2] at hr
  · intro hc
    subst hc
    simp [hp1, hp2] at hr

theorem go_generic_step (send : Nat → SendOutcome) (n : Nat)
    (hs : isSuccessO (send 0) = false) (hp : isPermDenied (send 0) = false)
    (hr : isRetryable (send 0) = false) (hn : n ≠ 0) :
    (sendWithRetryGo send (n + 1)).1 =
      (sendWithRetryGo (fun i => send (i + 1)) n).1 := by
  cases ho : send 0 with
  | success m => rw [ho] at hs; simp [isSuccessO] at hs
  | otherErr e =>
    simp only [sendWithRetryGo, ho]
    rw [if_neg hn]
  | httpErr st code ra msg =>
    rw [ho] at hp hr
    have hg : isGenericFail (SendOutcome.httpErr st code ra msg) = true := by
      simp [isGenericFail, isSuccessO, hp, hr]
    obtain ⟨hnp, h429, hsm⟩ := genericHttp_conds st code ra msg hg
    simp only [sendWithRetryGo, ho]
    rw [if_neg hnp, if_neg h429, if_neg hsm, if_neg hn]

theorem go_last_generic (send : Nat → SendOutcome)
    (hg : isGenericFail (send 0) = true) :
    sendWithRetryGo send 1 = (RetryResult.raised (toRaised (send 0)), []) := by
  cases ho : send 0 with
  | success m => rw [ho] at hg; simp [isGenericFail, isSuccessO] at hg
  | otherErr e =>
    simp only [sendWithRetryGo, ho]
    rfl
  | httpErr st code ra msg =>
    rw [ho] at hg
    obtain ⟨hnp, h429, hsm⟩ := genericHttp_conds st code ra msg hg
    simp only [sendWithRetryGo, ho]
    rw [if_neg hnp, if_neg h429, if_neg hsm]
    simp [toRaised]

theorem go_perm_reached (i : Nat) :
    ∀ (send : Nat → SendOutcome) (n : Nat), i < n →
    (∀ j, j < i → isRetryable (send j) = true) →
    isPermDenied (send i) = true →
    (sendWithRetryGo send n).1 = RetryResult.noResult := by
  induction i with
  | zero =>
    intro send n hn _ hperm
    cases n with
    | zero => cases hn
    | succ n =>
      rw [go_perm_first send n hperm]
  | succ i ih =>
    intro send n hn hpre hperm
    cases n with
    | zero => cases hn
    | succ n =>
      have h0 : isRetryable (send 0) = true := hpre 0 (Nat.succ_pos i)
      rw [(go_retryable_step send n h0).1]
      exact ih (fun j => send (j + 1)) n (Nat.lt_of_succ_lt_succ hn)
        (fun j hj => hpre (j + 1) (Nat.succ_lt_succ hj)) hperm

theorem go_all_retryable :
    ∀ (n : Nat) (send : Nat → SendOutcome),
    (∀ i, i < n → isRetryable (send i) = true) →
    (sendWithRetryGo send n).1 = RetryResult.noResult ∧
    (sendWithRetryGo send n).2.length = n := by
  intro n
  induction n with
  | zero => intro send _; exact ⟨rfl, rfl⟩
  | succ n ih =>
    intro send h
    have h0 : isRetryable (send 0) = true := h 0 (Nat.succ_pos n)
    have hrec := ih (fun i => send (i + 1))
      (fun i hi => h (i + 1) (Nat.succ_lt_succ hi))
    refine ⟨?_, ?_⟩
    · rw [(go_retryable_step send n h0).1]
      exact hrec.1
    · rw [(go_retryable_step send n h0).2, hrec.2]

theorem go_exhaust_generic :
    ∀ (n : Nat) (send : Nat → SendOutcome),
    (∀ i, i < n → isSuccessO (send i) = false ∧
      isPermDenied (send i) = false) →
    0 < n → isGenericFail (send (n - 1)) = true →
    (sendWithRetryGo send n).1 =
      RetryResult.raised (toRaised (send (n - 1))) := by
  intro n
  induction n with
  | zero => intro send _ hn _; cases hn
  | succ n ih =>
    intro send h hn hg
    cases n with
    | zero =>
      rw [go_last_generic send hg]
    | succ m =>
      have h0 := h 0 (Nat.succ_pos _)
      have hstep : (sendWithRetryGo send (m + 1 + 1)).1 =
          (sendWithRetryGo (fun i => send (i + 1)) (m + 1)).1 := by
        by_cases hr : isRetryable (send 0) = true
        · exact (go_retryable_step send (m + 1) hr).1
        · rw [Bool.not_eq_true] at hr
          exact go_generic_step send (m + 1) h0.1 h0.2 hr (Nat.succ_ne_zero m)
      rw [hstep]
      exact ih (fun i => send (i + 1))
        (fun i hi => h (i + 1) (Nat.succ_lt_succ hi)) (Nat.succ_pos m) hg

/-- C3 counterexample: with the default three attempts, a run whose every
attempt fails rate-limited returns `None` although no permission-denied
failure was ever encountered, so returning nil does not imply permission
denial: exhausting the attempts on the retryable classes also yields nil
instead of propagating the last error. -/
theorem C3_counterexample :
    (send_with_retry rateLimitedAlwaysW 3).1 = RetryResult.noResult ∧
    isPermDenied (rateLimitedAlwaysW 0) = false ∧
    isPermDenied (rateLimitedAlwaysW 1) = false ∧
    isPermDenied (rateLimitedAlwaysW 2) = false := by
  decide

/-- C3 (amended): a permission-denied failure (403 or code 50013) yields
nil immediately with no wait and no further attempt, also when reached
after rate-limited attempts; but nil is additionally returned when all
`maxAttempts` attempts fail with the retryable classes (429 or 20016),
one wait per attempt; the last error propagates only when the attempts
are exhausted and the final failure is of any other class. -/
theorem C3_nil_outcomes (send : Nat → SendOutcome) (n : Nat) :
    (isPermDenied (send 0) = true →
      sendWithRetryGo send (n + 1) = (RetryResult.noResult, [])) ∧
    (∀ i, i < n → (∀ j, j < i → isRetryable (send j) = true) →
      isPermDenied (send i) = true →
      (sendWithRetryGo send n).1 = RetryResult.noResult) ∧
    ((∀ i, i < n → isRetryable (send i) = true) →
      (sendWithRetryGo send n).1 = RetryResult.noResult ∧
      (sendWithRetryGo send n).2.length = n) ∧
    ((∀ i, i < n → isSuccessO (send i) = false ∧
        isPermDenied (send i) = false) →
      0 < n → isGenericFail (send (n - 1)) = true →
      (sendWithRetryGo send n).1 =
        RetryResult.raised (toRaised (send (n - 1)))) := by
  refine ⟨go_perm_first send n, ?_, go_all_retryable n send,
    go_exhaust_generic n send⟩
  intro i hi hpre hperm
  exact go_perm_reached i send n hi hpre hperm

theorem C3_witness :
    sendWithRetryGo permFirstW 4 = (RetryResult.noResult, []) ∧
    (sendWithRetryGo permSecondW 3).1 = RetryResult.noResult ∧
    (sendWithRetryGo rateLimitedAlwaysW 3).1 = RetryResult.noResult ∧
    (sendWithRetryGo genericAlwaysW 3).1 =
      RetryResult.raised (RaisedErr.httpE 500 0 none "internal error") := by
  refine ⟨?_, ?_, ?_, ?_⟩
  · exact (C3_nil_outcomes permFirstW 3).1 rfl
  · exact (C3_nil_outcomes permSecondW 3).2.1 1 (by decide)
      (by
        intro j hj
        interval_cases j
        decide)
      (by decide)
  · exact ((C3_nil_outcomes rateLimitedAlwaysW 3).2.2.1
      (fun i _ => rfl)).1
  · exact (C3_nil_outcomes genericAlwaysW 3).2.2.2
      (fun i _ => ⟨rfl, rfl⟩) (by decide) rfl

/-- C4 counterexample: with `maxAttempts = 3`, three consecutive
rate-limited failures followed by a success do not produce the success:
the three failures consume all three attempts (sleeping three times), the
fourth send never happens, and the call returns `None`. -/
theorem C4_counterexample :
    send_with_retry rateLimitedThriceW 3 = (RetryResult.noResult, [2, 2, 2]) ∧
    (send_with_retry rateLimitedThriceW 3).1 ≠ RetryResult.sent 42 ∧
    isSuccessO (rateLimitedThriceW 3) = true := by
  decide

/-- C4 (amended): with `maxAttempts = 3`, two consecutive rate-limited
failures followed by a success return the success result after two waits,
each wait being the server-advised duration or 5 seconds when none is
given, each retry counted against the attempt budget; three consecutive
rate-limited failures instead exhaust all three attempts and return nil
after three such waits. -/
theorem C4_rate_limited_runs (send : Nat → SendOutcome)
    (c0 c1 c2 : Int) (ra0 ra1 ra2 : Option Int) (m0 m1 m2 : String)
    (msgId : Nat)
    (h0 : send 0 = SendOutcome.httpErr 429 c0 ra0 m0) (hc0 : c0 ≠ 50013)
    (h1 : send 1 = SendOutcome.httpErr 429 c1 ra1 m1) (hc1 : c1 ≠ 50013) :
    (send 2 = SendOutcome.success msgId →
      send_with_retry send 3 =
        (RetryResult.sent msgId, [ra0.getD 5, ra1.getD 5])) ∧
    (send 2 = SendOutcome.httpErr 429 c2 ra2 m2 → c2 ≠ 50013 →
      send_with_retry send 3 =
        (RetryResult.noResult, [ra0.getD 5, ra1.getD 5, ra2.getD 5])) := by
  have hnp0 : ¬ ((429 : Int) = 403 ∨ c0 = 50013) := by
    rintro (hc | hc)
    · exact absurd hc (by decide)
    · exact hc0 hc
  have hnp1 : ¬ ((429 : Int) = 403 ∨ c1 = 50013) := by
    rintro (hc | hc)
    · exact absurd hc (by decide)
    · exact hc1 hc
  have hstep0 := go_step_429 send 2 429 c0 ra0 m0 h0 hnp0 rfl
  have hstep1 := go_step_429 (fun i => send (i + 1)) 1 429 c1 ra1 m1 h1
    hnp1 rfl
  constructor
  · intro h2
    show sendWithRetryGo send 3 = _
    rw [hstep0, hstep1]
    have hlast : sendWithRetryGo (fun i => send (i + 1 + 1)) 1 =
        (RetryResult.sent msgId, []) := by
      simp only [sendWithRetryGo, h2]
    rw [hlast]
  · intro h2 hc2
    have hnp2 : ¬ ((429 : Int) = 403 ∨ c2 = 50013) := by
      rintro (hc | hc)
      · exact absurd hc (by decide)
      · exact hc2 hc
    have hstep2 := go_step_429 (fun i => send (i + 1 + 1)) 0 429 c2 ra2 m2
      h2 hnp2 rfl
    show sendWithRetryGo send 3 = _
    rw [hstep0, hstep1, hstep2]
    rfl

theorem C4_witness :
    send_with_retry rateLimitedTwiceW 3 = (RetryResult.sent 77, [3, 5]) ∧
    send_with_retry rateLimitedThriceW 3 =
      (RetryResult.noResult, [2, 2, 2]) := by
  constructor
  · exact (C4_rate_limited_runs rateLimitedTwiceW 0 0 0 (some 3) none
      (some 9) "rate limited" "rate limited again" "x" 77 rfl (by decide)
      rfl (by decide)).1 rfl
  · exact (C4_rate_limited_runs rateLimitedThriceW 0 0 0 (some 2) (some 2)
      (some 2) "rate limited" "rate limited" "rate limited" 42 rfl
      (by decide) rfl (by decide)).2 rfl (by decide)

/-- C8: a slow-mode failure (code 20016, not permission-denied, not a 429)
makes the loop sleep for the integer extracted from the error text by the
pattern digits-whitespace-`second`, or 5 when no such match exists, plus a
1 second buffer, and the retry consumes one unit of the remaining attempt
budget (`n + 1` attempts become `n`). -/
theorem C8_slow_mode_wait (send : Nat → SendOutcome) (n : Nat)
    (st code : Int) (ra : Option Int) (msg : String)
    (h : send 0 = SendOutcome.httpErr st code ra msg)
    (hnp : ¬ (st = 403 ∨ code = 50013)) (h429 : st ≠ 429)
    (hsm : code = 20016) :
    sendWithRetryGo send (n + 1) =
      ((sendWithRetryGo (fun i => send (i + 1)) n).1,
        slowModeWait msg :: (sendWithRetryGo (fun i => send (i + 1)) n).2) ∧
    slowModeWait msg = Int.ofNat ((extractWait msg).getD 5) + 1 :=
  ⟨go_step_slow send n st code ra msg h hnp h429 hsm, rfl⟩

theorem C8_witness :
    sendWithRetryGo slowModeParseW 2 = (RetryResult.sent 9, [8]) ∧
    sendWithRetryGo slowModeNoParseW 2 = (RetryResult.sent 9, [6]) := by
  constructor
  · rw [(C8_slow_mode_wait slowModeParseW 1 400 20016 none
      "You must wait 7 seconds here" rfl (by decide) (by decide) rfl).1]
    decide
  · rw [(C8_slow_mode_wait slowModeNoParseW 1 400 20016 none
      "slow mode is active" rfl (by decide) (by decide) rfl).1]
    decide
